import Mathlib

/-!
Shallow embedding of `geojson_to_shp` (src/lib.rs, src/converter.rs).

The program converts a parsed GeoJSON FeatureCollection into shapefile
output: per feature it transcodes the geometry to a shape record and
assembles a dBase attribute record, writing both through library sinks.

Modelling conventions:
* f64 coordinate and attribute values are modelled as `Rat`.  The code
  performs no floating-point arithmetic on them — coordinates are moved
  verbatim through `geo_types` / `shapefile` conversions and attribute
  numbers are passed through `as_f64` — so only the identity of values
  matters, which `Rat` captures exactly.
* Rust panics are modelled as error values of `ConvError`.  The spec's
  error taxonomy (§7) names each panic site: `EmptyCollection` for the
  `features[0]` index panic on an empty collection, `MissingProperties`,
  `MissingGeometry`, `UnsupportedGeometryType`, `UnsupportedAttributeType`
  (the `"Property type not supported!"` / `"lazy"` panics),
  `MissingAttribute` (the `"Could not write record!"` expect).
* `serde_json::Map` (the PropertyMap) is modelled as an insertion-ordered
  association list with unique keys, matching the spec's data model
  ("mapping from attribute name (string, unique within a feature)",
  iteration in first-seen order).
* The geometry/attribute sinks are library collaborators (the `shapefile`
  and `dbase` crates), out of scope for the source; the spec specifies
  them only by interface.  The geometry sink appends shape records in
  order; the attribute sink (`TableWriter::write_record`) is modelled
  from the spec's Record Assembler contract (§4.4/§6c): for each schema
  column in order, look the attribute up by name, failing with
  `MissingAttribute` when absent and `AttributeTypeMismatch` on a kind
  mismatch.  `FieldName::try_from` is modelled as the identity (the spec
  places no constraint on field names).
-/

/-- A `serde_json::Value` as seen by the converter.  Array and Object
payloads are never inspected by the code (they are rejected on sight),
so they carry no data here. -/
inductive JsonValue : Type where
  | null : JsonValue
  | bool (b : Bool) : JsonValue
  /-- A JSON number; the field is the result of `Number::as_f64`. -/
  | num (asF64 : Option Rat) : JsonValue
  | str (s : String) : JsonValue
  | arr : JsonValue
  | obj : JsonValue
deriving DecidableEq, Repr

/-- The kind tag of a JSON value, used in error reports. -/
def JsonValue.kindName : JsonValue → String
  | .null => "Null"
  | .bool _ => "Bool"
  | .num _ => "Number"
  | .str _ => "String"
  | .arr => "Array"
  | .obj => "Object"

/-- Is the value of a kind the converter supports (Number or String)? -/
def JsonValue.isSupported : JsonValue → Bool
  | .num _ => true
  | .str _ => true
  | _ => false

/-- `geojson` PropertyMap: insertion-ordered map from attribute name to
value, iterated in first-seen order. -/
abbrev PropertyMap := List (String × JsonValue)

/-- A GeoJSON position (`Vec<f64>`): x, y and possibly further (Z/M)
coordinates. -/
abbrev Position := List Rat

/-- The `geojson::Value` geometry variants.  Only Point and LineString
payloads are inspected by the code; the other variants are rejected on
sight and carry no data here. -/
inductive GeoValue : Type where
  | point (coordinates : Position) : GeoValue
  | multiPoint : GeoValue
  | lineString (points : List Position) : GeoValue
  | multiLineString : GeoValue
  | polygon : GeoValue
  | multiPolygon : GeoValue
  | geometryCollection : GeoValue
deriving DecidableEq, Repr

/-- The variant tag of a geometry, used in error reports. -/
def GeoValue.tagName : GeoValue → String
  | .point _ => "Point"
  | .multiPoint => "MultiPoint"
  | .lineString _ => "LineString"
  | .multiLineString => "MultiLineString"
  | .polygon => "Polygon"
  | .multiPolygon => "MultiPolygon"
  | .geometryCollection => "GeometryCollection"

/-- Is the geometry of a variant the converter supports? -/
def GeoValue.isSupportedGeom : GeoValue → Bool
  | .point _ => true
  | .lineString _ => true
  | _ => false

/-- A `geojson::Feature`: optional geometry and optional property map. -/
structure Feature : Type where
  geometry : Option GeoValue
  properties : Option PropertyMap
deriving DecidableEq, Repr

/-- A `geojson::FeatureCollection`. -/
structure FeatureCollection : Type where
  features : List Feature
deriving DecidableEq, Repr

/-- The error taxonomy of the run (spec §7); each constructor models a
panic/`?` exit site of the source. -/
inductive ConvError : Type where
  | emptyCollection : ConvError
  | missingProperties (featureIndex : Nat) : ConvError
  | missingGeometry (featureIndex : Nat) : ConvError
  | unsupportedGeometryType (featureIndex : Nat) (tag : String) : ConvError
  | unsupportedAttributeType (attrName : String) (kind : String) : ConvError
  | missingAttribute (featureIndex : Nat) (column : String) : ConvError
  | attributeTypeMismatch (featureIndex : Nat) (column : String)
      (expected actual : String) : ConvError
  /-- `p[0]` / `p[1]` indexing panic on a position with fewer than two
  coordinates. -/
  | invalidPosition (featureIndex : Nat) : ConvError
deriving DecidableEq, Repr

/-- A dBase column type as declared by `TableWriterBuilder`
(`add_numeric_field` length/decimals, `add_character_field` length). -/
inductive ColumnType : Type where
  | numeric (fieldLength : Nat) (numDecimals : Nat) : ColumnType
  | character (fieldLength : Nat) : ColumnType
deriving DecidableEq, Repr

/-- One schema column: field name plus declared type. -/
structure ColumnDescriptor : Type where
  name : String
  colType : ColumnType
deriving DecidableEq, Repr

/-- The frozen attribute-table schema, in declaration order. -/
abbrev Schema := List ColumnDescriptor

/-- A `dbase::FieldValue` as produced by the record-assembly loop. -/
inductive FieldValue : Type where
  | numeric (value : Option Rat) : FieldValue
  | character (value : Option String) : FieldValue
deriving DecidableEq, Repr

/-- Kind tag of a field value, used in mismatch error reports. -/
def FieldValue.kindName : FieldValue → String
  | .numeric _ => "Numeric"
  | .character _ => "Character"

/-- Kind tag of a column type, used in mismatch error reports. -/
def ColumnType.kindName : ColumnType → String
  | .numeric _ _ => "Numeric"
  | .character _ => "Character"

/-- Does a field value's kind match a column's declared type? -/
def fieldTypeMatches : ColumnType → FieldValue → Bool
  | .numeric _ _, .numeric _ => true
  | .character _, .character _ => true
  | _, _ => false

/-- A `dbase::Record`: the per-feature attribute record, here as the
list of `(name, value)` pairs inserted by the assembly loop. -/
abbrev DbfRecord := List (String × FieldValue)

/-- The column declared for one supported property (lib.rs:145-150):
Number → `add_numeric_field(name, 22, 20)`, String →
`add_character_field(name, 255)`.  The final arm is never reached on a
supported value; it exists only to make the function total. -/
def columnOf : String × JsonValue → ColumnDescriptor
  | (n, .num _) => ⟨n, .numeric 22 20⟩
  | (n, .str _) => ⟨n, .character 255⟩
  | (n, _) => ⟨n, .character 255⟩

/-- The schema-building loop of `build_dbf_writer` (lib.rs:142-153):
iterate the property map in order, declaring a Numeric(22,20) column for
a Number value and a Character(255) column for a String value, and
failing on the first value of any other kind (the
`"Property type not supported!"` panic). -/
def buildSchemaFromProps : PropertyMap → Except ConvError Schema
  | [] => .ok []
  | (name, .num _) :: rest => do
      let cols ← buildSchemaFromProps rest
      pure (⟨name, .numeric 22 20⟩ :: cols)
  | (name, .str _) :: rest => do
      let cols ← buildSchemaFromProps rest
      pure (⟨name, .character 255⟩ :: cols)
  | (name, .arr) :: _ => .error (.unsupportedAttributeType name JsonValue.arr.kindName)
  | (name, .obj) :: _ => .error (.unsupportedAttributeType name JsonValue.obj.kindName)
  | (name, .null) :: _ => .error (.unsupportedAttributeType name JsonValue.null.kindName)
  | (name, .bool b) :: _ =>
      .error (.unsupportedAttributeType name (JsonValue.bool b).kindName)

/-- `build_dbf_writer` (lib.rs:130-156): reads `features[0]` (panic on
an empty collection, spec: `EmptyCollection`), requires its property map
(panic, spec: `MissingProperties`), and builds the schema from that map
alone. -/
def build_dbf_writer (fc : FeatureCollection) : Except ConvError Schema :=
  match fc.features with
  | [] => .error .emptyCollection
  | feature :: _ =>
    match feature.properties with
    | none => .error (.missingProperties 0)
    | some properties => buildSchemaFromProps properties

/-- A shapefile shape record: a single point or a polyline.  (The
source emits one-part polylines; the vertex list is the single part.) -/
inductive ShapeRecord : Type where
  | point (x y : Rat) : ShapeRecord
  | polyline (vertices : List (Rat × Rat)) : ShapeRecord
deriving DecidableEq, Repr

/-- `(p[0], p[1])` on a GeoJSON position: takes the first two
coordinates, dropping any Z/M, and panics (models as `invalidPosition`)
when fewer than two are present. -/
def posXY (i : Nat) : Position → Except ConvError (Rat × Rat)
  | x :: y :: _ => .ok (x, y)
  | _ => .error (.invalidPosition i)

/-- The vertex list of the transcoded polyline
(`line.iter().map(|point| (point[0], point[1])).collect()`,
lib.rs:89-90), evaluated left to right with fail-fast panic
propagation. -/
def transcodeLine (i : Nat) : List Position → Except ConvError (List (Rat × Rat))
  | [] => .ok []
  | p :: rest => do
    let xy ← posXY i p
    let vs ← transcodeLine i rest
    pure (xy :: vs)

/-- The geometry match of `write` (lib.rs:81-97): Point and LineString
are transcoded coordinate-for-coordinate (the `geo_types` and
`shapefile` conversions are identities on the (x, y) data, spec §4.3);
every other variant hits the `"Unimplemented Geometry Type!"` panic,
spec: `UnsupportedGeometryType` with the feature index and variant
tag. -/
def transcodeGeometry (i : Nat) : GeoValue → Except ConvError ShapeRecord
  | .point p => do
      let xy ← posXY i p
      pure (.point xy.1 xy.2)
  | .lineString line => do
      let vertices ← transcodeLine i line
      pure (.polyline vertices)
  | .multiPoint => .error (.unsupportedGeometryType i GeoValue.multiPoint.tagName)
  | .multiLineString =>
      .error (.unsupportedGeometryType i GeoValue.multiLineString.tagName)
  | .polygon => .error (.unsupportedGeometryType i GeoValue.polygon.tagName)
  | .multiPolygon => .error (.unsupportedGeometryType i GeoValue.multiPolygon.tagName)
  | .geometryCollection =>
      .error (.unsupportedGeometryType i GeoValue.geometryCollection.tagName)

/-- The field value inserted for one supported property
(lib.rs:107-118): Number → `FieldValue::Numeric(val.as_f64())`,
String → `FieldValue::Character(Some(val))`.  The final arm is never
reached on a supported value; it exists only to make the function
total. -/
def fieldValueOf : JsonValue → FieldValue
  | .num q => .numeric q
  | .str s => .character (some s)
  | _ => .character none

/-- The record-assembly loop of `write` (lib.rs:104-121): iterate the
feature's property map, inserting a Numeric value for a Number and a
Character value for a String, and failing on the first value of any
other kind (the `"lazy"` panic, spec: `UnsupportedAttributeType`). -/
def assembleRecord : PropertyMap → Except ConvError DbfRecord
  | [] => .ok []
  | (name, .num q) :: rest => do
      let entries ← assembleRecord rest
      pure ((name, FieldValue.numeric q) :: entries)
  | (name, .str s) :: rest => do
      let entries ← assembleRecord rest
      pure ((name, FieldValue.character (some s)) :: entries)
  | (name, .arr) :: _ => .error (.unsupportedAttributeType name JsonValue.arr.kindName)
  | (name, .obj) :: _ => .error (.unsupportedAttributeType name JsonValue.obj.kindName)
  | (name, .null) :: _ => .error (.unsupportedAttributeType name JsonValue.null.kindName)
  | (name, .bool b) :: _ =>
      .error (.unsupportedAttributeType name (JsonValue.bool b).kindName)

/-- Modelled from the spec: `TableWriter::write_record` — the attribute
sink, implemented by the `dbase` library crate, not in src/.  Per the
Record Assembler contract (spec §4.4) and the sink interface (§6c): for
each schema column in order, look the value up by name; a column absent
from the record fails with `MissingAttribute` (the
`"Could not write record!"` expect), a kind mismatch fails with
`AttributeTypeMismatch`.  Record entries whose names are not schema
columns are never examined. -/
def writeRecord (i : Nat) (record : DbfRecord) : Schema → Except ConvError Unit
  | [] => .ok ()
  | col :: rest =>
    match record.lookup col.name with
    | none => .error (.missingAttribute i col.name)
    | some fv =>
      if fieldTypeMatches col.colType fv then writeRecord i record rest
      else .error (.attributeTypeMismatch i col.name
        col.colType.kindName fv.kindName)

/-- The observable output state of a run: the shape records written to
the `.shp` sink and the attribute records written to the `.dbf` sink,
each in write order. -/
structure RunState : Type where
  shapes : List ShapeRecord
  records : List DbfRecord
deriving DecidableEq, Repr

/-- Outcome of (a prefix of) a run: the final sink state, plus the
error when the run aborted. -/
inductive RunResult : Type where
  | ok (st : RunState) : RunResult
  | fail (st : RunState) (e : ConvError) : RunResult
deriving DecidableEq, Repr

/-- The sink state a run result leaves behind. -/
def RunResult.state : RunResult → RunState
  | .ok st => st
  | .fail st _ => st

/-- One iteration of the `write` loop (lib.rs:76-125) on feature `i`,
in source order: require the geometry (panic, spec: `MissingGeometry`),
transcode and write the shape, require the property map (panic, spec:
`MissingProperties`), assemble the record, write it through the
attribute sink.  Note the shape is written before the properties are
even inspected. -/
def processFeature (schema : Schema) (i : Nat) (st : RunState)
    (f : Feature) : RunResult :=
  match f.geometry with
  | none => .fail st (.missingGeometry i)
  | some g =>
    match transcodeGeometry i g with
    | .error e => .fail st e
    | .ok shape =>
      let st1 : RunState := ⟨st.shapes ++ [shape], st.records⟩
      match f.properties with
      | none => .fail st1 (.missingProperties i)
      | some properties =>
        match assembleRecord properties with
        | .error e => .fail st1 e
        | .ok record =>
          match writeRecord i record schema with
          | .error e => .fail st1 e
          | .ok _ => .ok ⟨st1.shapes, st1.records ++ [record]⟩

/-- The `write` loop over the remaining features, feature `i` first:
any failure aborts the run immediately, leaving the partial sink
state. -/
def writeRun (schema : Schema) (i : Nat) (st : RunState) :
    List Feature → RunResult
  | [] => .ok st
  | f :: rest =>
    match processFeature schema i st f with
    | .fail st' e => .fail st' e
    | .ok st' => writeRun schema (i + 1) st' rest

/-- `FeatureCollectionToShpWriter` (lib.rs:45-49): the parsed
collection together with the frozen dbf schema (the state of the built
`TableWriter`). -/
structure FeatureCollectionToShpWriter : Type where
  feature_collection : FeatureCollection
  schema : Schema
deriving DecidableEq, Repr

/-- `FeatureCollectionToShpWriter::new` (lib.rs:52-73), after parsing:
opens the sinks and builds the dbf writer via `build_dbf_writer`;
construction fails exactly when schema building fails. -/
def FeatureCollectionToShpWriter.new (fc : FeatureCollection) :
    Except ConvError FeatureCollectionToShpWriter := do
  let schema ← build_dbf_writer fc
  pure ⟨fc, schema⟩

/-- `FeatureCollectionToShpWriter::write` (lib.rs:75-127): the full
conversion loop from empty sinks. -/
def FeatureCollectionToShpWriter.write (w : FeatureCollectionToShpWriter) :
    RunResult :=
  writeRun w.schema 0 ⟨[], []⟩ w.feature_collection.features

/-- A whole run: construct the writer, then write. -/
def convertRun (fc : FeatureCollection) : Except ConvError RunResult := do
  let w ← FeatureCollectionToShpWriter.new fc
  pure w.write

/-! ### Helper lemmas about schema building and record assembly -/

/-- When every property value is supported, the schema-building loop
succeeds and declares exactly one column per property, in map order. -/
theorem buildSchemaFromProps_eq_map (props : PropertyMap)
    (h : ∀ p ∈ props, p.2.isSupported = true) :
    buildSchemaFromProps props = .ok (props.map columnOf) := by
  induction props with
  | nil => rfl
  | cons p rest ih =>
    have hp := h p (List.mem_cons_self p rest)
    have hrest := ih fun q hq => h q (List.mem_cons_of_mem p hq)
    match p with
    | (n, v) =>
      cases v <;> simp [JsonValue.isSupported] at hp <;>
        simp [buildSchemaFromProps, hrest, columnOf]

/-! ### Wellformedness predicates and concrete inputs used in statements -/

/-- A GeoJSON position with at least the two x/y coordinates the code
indexes (`p[0]`, `p[1]`). -/
def positionOk : Position → Bool
  | _ :: _ :: _ => true
  | _ => false

/-- A geometry the converter can transcode without a panic: a Point
with an (x, y) position, or a LineString all of whose positions have
(x, y). -/
def geomOk : GeoValue → Bool
  | .point p => positionOk p
  | .lineString pts => pts.all positionOk
  | _ => false

/-- The first feature of the spec §8 example collection. -/
def exPointFeature : Feature :=
  ⟨some (.point [1, 2]), some [("id", .num (some 1)), ("name", .str "a")]⟩

/-- The second feature of the spec §8 example collection. -/
def exPointFeature2 : Feature :=
  ⟨some (.point [3, 4]), some [("id", .num (some 2)), ("name", .str "b")]⟩

/-- The spec §8 example: two point features with `{id: Number, name: Text}`. -/
def exCollection : FeatureCollection := ⟨[exPointFeature, exPointFeature2]⟩

/-- The schema the example collection produces: `[id:Numeric(22,20),
name:Character(255)]`. -/
def exSchema : Schema := [⟨"id", .numeric 22 20⟩, ⟨"name", .character 255⟩]

/-- A feature like the example's second one but listing its attributes
in the opposite order to the first feature's (`name` before `id`). -/
def exPermFeature : Feature :=
  ⟨some (.point [3, 4]), some [("name", .str "b"), ("id", .num (some 2))]⟩

/-- The example collection with the second feature's attributes
permuted: the attribute name sets and per-name kinds still match. -/
def exPermCollection : FeatureCollection := ⟨[exPointFeature, exPermFeature]⟩

/-- A feature with an unsupported Polygon geometry. -/
def c5PolygonFeature : Feature := ⟨some .polygon, some [("id", .num (some 9))]⟩

/-- A feature whose second property is Boolean-valued. -/
def c6BadAttrFeature : Feature :=
  ⟨some (.point [5, 6]), some [("id", .num (some 3)), ("flag", .bool true)]⟩

/-- A feature lacking the schema column "name". -/
def c7MissingAttrFeature : Feature :=
  ⟨some (.point [7, 8]), some [("id", .num (some 4))]⟩

/-- First feature for the C7 counterexample: single attribute "id". -/
def c7Feature1 : Feature := ⟨some (.point [0, 1]), some [("id", .num (some 1))]⟩

/-- Second feature for the C7 counterexample: it has every schema
attribute plus the extra attribute "extra", absent from the schema. -/
def c7Feature2 : Feature :=
  ⟨some (.point [2, 3]), some [("id", .num (some 2)), ("extra", .str "x")]⟩

/-- The C7 counterexample collection. -/
def c7Collection : FeatureCollection := ⟨[c7Feature1, c7Feature2]⟩

/-! ### Helper lemmas -/

theorem buildSchemaFromProps_cons_ok (n : String) (v : JsonValue) (rest : PropertyMap)
    (schema : Schema) (h : buildSchemaFromProps ((n, v) :: rest) = .ok schema) :
    v.isSupported = true ∧
      ∃ cols, buildSchemaFromProps rest = .ok cols ∧ schema = columnOf (n, v) :: cols := by
  cases hrest : buildSchemaFromProps rest with
  | error e =>
    cases v <;> simp [buildSchemaFromProps, hrest] at h
  | ok cols =>
    cases v <;> simp [buildSchemaFromProps, hrest] at h <;>
      simp [JsonValue.isSupported, columnOf, ← h]

theorem buildSchemaFromProps_ok_inv (props : PropertyMap) (schema : Schema)
    (h : buildSchemaFromProps props = .ok schema) :
    schema = props.map columnOf ∧ ∀ p ∈ props, p.2.isSupported = true := by
  induction props generalizing schema with
  | nil =>
    simp [buildSchemaFromProps] at h
    simp [← h]
  | cons p rest ih =>
    match p with
    | (n, v) =>
      obtain ⟨hsup, cols, hcols, heq⟩ := buildSchemaFromProps_cons_ok n v rest schema h
      obtain ⟨hmap, hall⟩ := ih cols hcols
      subst heq hmap
      refine ⟨rfl, ?_⟩
      intro q hq
      rcases List.mem_cons.mp hq with h1 | h2
      · subst h1; exact hsup
      · exact hall q h2

theorem columnOf_name (p : String × JsonValue) : (columnOf p).name = p.1 := by
  match p with
  | (n, v) => cases v <;> rfl

theorem buildSchemaFromProps_append_err (good : PropertyMap) (n : String)
    (bad : JsonValue) (rest : PropertyMap)
    (hgood : ∀ p ∈ good, p.2.isSupported = true) (hbad : bad.isSupported = false) :
    buildSchemaFromProps (good ++ (n, bad) :: rest) =
      .error (.unsupportedAttributeType n bad.kindName) := by
  induction good with
  | nil => cases bad <;> simp [JsonValue.isSupported] at hbad <;> rfl
  | cons p grest ih =>
    have hp := hgood p (List.mem_cons_self p grest)
    have h2 := ih fun q hq => hgood q (List.mem_cons_of_mem p hq)
    match p with
    | (m, w) =>
      cases w <;> simp [JsonValue.isSupported] at hp <;>
        simp [List.cons_append, buildSchemaFromProps, h2]

theorem assembleRecord_eq_map (props : PropertyMap)
    (h : ∀ p ∈ props, p.2.isSupported = true) :
    assembleRecord props = .ok (props.map fun p => (p.1, fieldValueOf p.2)) := by
  induction props with
  | nil => rfl
  | cons p rest ih =>
    have hp := h p (List.mem_cons_self p rest)
    have hrest := ih fun q hq => h q (List.mem_cons_of_mem p hq)
    match p with
    | (n, v) =>
      cases v <;> simp [JsonValue.isSupported] at hp <;>
        simp [assembleRecord, hrest, fieldValueOf]

theorem assembleRecord_append_err (good : PropertyMap) (n : String)
    (bad : JsonValue) (rest : PropertyMap)
    (hgood : ∀ p ∈ good, p.2.isSupported = true) (hbad : bad.isSupported = false) :
    assembleRecord (good ++ (n, bad) :: rest) =
      .error (.unsupportedAttributeType n bad.kindName) := by
  induction good with
  | nil => cases bad <;> simp [JsonValue.isSupported] at hbad <;> rfl
  | cons p grest ih =>
    have hp := hgood p (List.mem_cons_self p grest)
    have h2 := ih fun q hq => hgood q (List.mem_cons_of_mem p hq)
    match p with
    | (m, w) =>
      cases w <;> simp [JsonValue.isSupported] at hp <;>
        simp [List.cons_append, assembleRecord, h2]

theorem transcodeLine_ok (i : Nat) (pts : List Position)
    (h : ∀ p ∈ pts, positionOk p = true) :
    ∃ vs, transcodeLine i pts = .ok vs ∧ vs.length = pts.length ∧
      ∀ (j : Nat) (x y : Rat) (zm : List Rat),
        pts[j]? = some (x :: y :: zm) → vs[j]? = some (x, y) := by
  induction pts with
  | nil =>
    refine ⟨[], rfl, rfl, ?_⟩
    intro j x y zm hj
    cases j <;> simp at hj
  | cons p rest ih =>
    have hp := h p (List.mem_cons_self p rest)
    obtain ⟨vs, hvs, hlen, hpt⟩ := ih fun q hq => h q (List.mem_cons_of_mem p hq)
    rcases p with _ | ⟨x, _ | ⟨y, zm⟩⟩ <;> simp [positionOk] at hp
    refine ⟨(x, y) :: vs, ?_, by simp [hlen], ?_⟩
    · simp [transcodeLine, posXY, hvs, Bind.bind, Except.bind, Pure.pure, Except.pure]
    · intro j a b zm' hj
      cases j with
      | zero =>
        simp at hj ⊢
        exact ⟨hj.1, hj.2.1⟩
      | succ j =>
        simp at hj ⊢
        exact hpt j a b zm' hj

theorem transcodeGeometry_ok (i : Nat) (g : GeoValue) (h : geomOk g = true) :
    ∃ shape, transcodeGeometry i g = .ok shape := by
  cases g with
  | point p =>
    rcases p with _ | ⟨x, _ | ⟨y, zm⟩⟩ <;> simp [geomOk, positionOk] at h
    exact ⟨.point x y, rfl⟩
  | lineString pts =>
    simp [geomOk, List.all_eq_true] at h
    obtain ⟨vs, hvs, -, -⟩ := transcodeLine_ok i pts h
    exact ⟨.polyline vs, by simp [transcodeGeometry, hvs]⟩
  | multiPoint => simp [geomOk] at h
  | multiLineString => simp [geomOk] at h
  | polygon => simp [geomOk] at h
  | multiPolygon => simp [geomOk] at h
  | geometryCollection => simp [geomOk] at h

theorem lookup_cons_self (n : String) (fv : FieldValue) (rest : DbfRecord) :
    ((n, fv) :: rest).lookup n = some fv := by
  simp [List.lookup]

theorem lookup_cons_ne (n m : String) (fv : FieldValue) (rest : DbfRecord)
    (h : n ≠ m) : ((m, fv) :: rest).lookup n = rest.lookup n := by
  have hb : (n == m) = false := beq_eq_false_iff_ne.mpr h
  simp [List.lookup, hb]

theorem lookup_append_of_none (n : String) (xs ys : DbfRecord)
    (h : xs.lookup n = none) : (xs ++ ys).lookup n = ys.lookup n := by
  induction xs with
  | nil => rfl
  | cons p rest ih =>
    match p with
    | (k, v) =>
      by_cases hk : n = k
      · subst hk; simp [lookup_cons_self] at h
      · rw [List.cons_append, lookup_cons_ne n k v _ hk] at *
        exact ih h

theorem lookup_append_of_some (n : String) (xs ys : DbfRecord) (fv : FieldValue)
    (h : xs.lookup n = some fv) : (xs ++ ys).lookup n = some fv := by
  induction xs with
  | nil => simp [List.lookup] at h
  | cons p rest ih =>
    match p with
    | (k, v) =>
      by_cases hk : n = k
      · subst hk
        rw [lookup_cons_self] at h
        rw [List.cons_append, lookup_cons_self]
        exact h
      · rw [lookup_cons_ne n k v _ hk] at h
        rw [List.cons_append, lookup_cons_ne n k v _ hk]
        exact ih h

theorem lookup_eq_none_of_names (n : String) (xs : DbfRecord)
    (h : ∀ p ∈ xs, p.1 ≠ n) : xs.lookup n = none := by
  induction xs with
  | nil => rfl
  | cons p rest ih =>
    match p with
    | (k, v) =>
      have hk : n ≠ k := fun he => (h (k, v) (List.mem_cons_self _ _)) he.symm
      rw [lookup_cons_ne n k v _ hk]
      exact ih fun q hq => h q (List.mem_cons_of_mem _ hq)

theorem writeRecord_ok (i : Nat) (record : DbfRecord) (schema : Schema)
    (h : ∀ c ∈ schema, ∃ fv, record.lookup c.name = some fv ∧
      fieldTypeMatches c.colType fv = true) :
    writeRecord i record schema = .ok () := by
  induction schema with
  | nil => rfl
  | cons c rest ih =>
    obtain ⟨fv, hfv, hmatch⟩ := h c (List.mem_cons_self c rest)
    simp [writeRecord, hfv, hmatch]
    exact ih fun d hd => h d (List.mem_cons_of_mem c hd)

theorem writeRecord_missing (i : Nat) (record : DbfRecord) (cs1 cs2 : Schema)
    (col : ColumnDescriptor)
    (h1 : ∀ c ∈ cs1, ∃ fv, record.lookup c.name = some fv ∧
      fieldTypeMatches c.colType fv = true)
    (h2 : record.lookup col.name = none) :
    writeRecord i record (cs1 ++ col :: cs2) = .error (.missingAttribute i col.name) := by
  induction cs1 with
  | nil => simp [writeRecord, h2]
  | cons c rest ih =>
    obtain ⟨fv, hfv, hmatch⟩ := h1 c (List.mem_cons_self c rest)
    simp [List.cons_append, writeRecord, hfv, hmatch]
    exact ih fun d hd => h1 d (List.mem_cons_of_mem c hd)

theorem writeRecord_extras (i : Nat) (record extras : DbfRecord) (schema : Schema)
    (h : ∀ e ∈ extras, ∀ c ∈ schema, e.1 ≠ c.name) :
    writeRecord i (record ++ extras) schema = writeRecord i record schema := by
  induction schema with
  | nil => rfl
  | cons c rest ih =>
    have hext : ∀ e ∈ extras, e.1 ≠ c.name :=
      fun e he => h e he c (List.mem_cons_self c rest)
    have hrest : writeRecord i (record ++ extras) rest = writeRecord i record rest :=
      ih fun e he d hd => h e he d (List.mem_cons_of_mem c hd)
    cases hrec : record.lookup c.name with
    | none =>
      have : (record ++ extras).lookup c.name = none := by
        rw [lookup_append_of_none c.name record extras hrec]
        exact lookup_eq_none_of_names c.name extras hext
      simp [writeRecord, this, hrec]
    | some fv =>
      have : (record ++ extras).lookup c.name = some fv :=
        lookup_append_of_some c.name record extras fv hrec
      simp [writeRecord, this, hrec, hrest]

theorem kindName_eq_num (v : JsonValue) (h : v.kindName = "Number") :
    ∃ q, v = .num q := by
  cases v <;> simp [JsonValue.kindName] at h
  exact ⟨_, rfl⟩

theorem kindName_eq_str (v : JsonValue) (h : v.kindName = "String") :
    ∃ s, v = .str s := by
  cases v <;> simp [JsonValue.kindName] at h
  exact ⟨_, rfl⟩

theorem isSupported_of_kindName (v v0 : JsonValue) (hk : v.kindName = v0.kindName)
    (hs : v0.isSupported = true) : v.isSupported = true := by
  cases v0 <;> simp [JsonValue.isSupported] at hs
  · obtain ⟨q, rfl⟩ := kindName_eq_num v hk; rfl
  · obtain ⟨s, rfl⟩ := kindName_eq_str v hk; rfl

theorem fieldTypeMatches_of_kindName (n : String) (v v0 : JsonValue)
    (hk : v.kindName = v0.kindName) (hs : v0.isSupported = true) :
    fieldTypeMatches (columnOf (n, v0)).colType (fieldValueOf v) = true := by
  cases v0 <;> simp [JsonValue.isSupported] at hs
  · obtain ⟨q, rfl⟩ := kindName_eq_num v hk; rfl
  · obtain ⟨s, rfl⟩ := kindName_eq_str v hk; rfl


theorem lookup_map_fieldValueOf (props : PropertyMap) (n : String) (v : JsonValue)
    (hmem : (n, v) ∈ props) (hnd : (props.map Prod.fst).Nodup) :
    (props.map fun p => (p.1, fieldValueOf p.2)).lookup n = some (fieldValueOf v) := by
  induction props with
  | nil => cases hmem
  | cons p rest ih =>
    rw [List.map_cons] at hnd
    obtain ⟨hp1, hnd'⟩ := List.nodup_cons.mp hnd
    rcases List.mem_cons.mp hmem with h1 | h2
    · rw [← h1]
      simp only [List.map_cons]
      exact lookup_cons_self n (fieldValueOf v) _
    · have hn : n ∈ rest.map Prod.fst := by
        exact List.mem_map.mpr ⟨(n, v), h2, rfl⟩
      have hne : n ≠ p.1 := fun he => hp1 (he ▸ hn)
      simp only [List.map_cons]
      rw [lookup_cons_ne n p.1 _ _ hne]
      exact ih h2 hnd'

theorem writeRecord_ok_of_kinds (i : Nat) (props props0 : PropertyMap)
    (hnd : (props.map Prod.fst).Nodup)
    (hcover : ∀ p0 ∈ props0, ∃ v, (p0.1, v) ∈ props ∧ v.kindName = p0.2.kindName)
    (hsup : ∀ p ∈ props0, p.2.isSupported = true) :
    writeRecord i (props.map fun p => (p.1, fieldValueOf p.2))
      (props0.map columnOf) = .ok () := by
  apply writeRecord_ok
  intro c hc
  obtain ⟨p0, hp0, hcol⟩ := List.mem_map.mp hc
  obtain ⟨v, hv, hk⟩ := hcover p0 hp0
  refine ⟨fieldValueOf v, ?_, ?_⟩
  · rw [← hcol, columnOf_name]
    exact lookup_map_fieldValueOf props p0.1 v hv hnd
  · rw [← hcol]
    have hm := fieldTypeMatches_of_kindName p0.1 v p0.2 hk (hsup p0 hp0)
    simpa using hm

theorem processFeature_ok_parts (schema : Schema) (i : Nat) (st : RunState)
    (f : Feature) (g : GeoValue) (props : PropertyMap) (shape : ShapeRecord)
    (record : DbfRecord)
    (hg : f.geometry = some g) (ht : transcodeGeometry i g = .ok shape)
    (hp : f.properties = some props) (ha : assembleRecord props = .ok record)
    (hw : writeRecord i record schema = .ok ()) :
    processFeature schema i st f = .ok ⟨st.shapes ++ [shape], st.records ++ [record]⟩ := by
  simp [processFeature, hg, ht, hp, ha, hw]

theorem processFeature_fail_geom (schema : Schema) (i : Nat) (st : RunState)
    (f : Feature) (g : GeoValue) (hg : f.geometry = some g)
    (hunsup : g.isSupportedGeom = false) :
    processFeature schema i st f = .fail st (.unsupportedGeometryType i g.tagName) := by
  cases g <;> simp [GeoValue.isSupportedGeom] at hunsup <;>
    simp [processFeature, hg, transcodeGeometry, GeoValue.tagName]

theorem processFeature_fail_attrs (schema : Schema) (i : Nat) (st : RunState)
    (f : Feature) (g : GeoValue) (shape : ShapeRecord) (props : PropertyMap)
    (e : ConvError)
    (hg : f.geometry = some g) (ht : transcodeGeometry i g = .ok shape)
    (hp : f.properties = some props) (ha : assembleRecord props = .error e) :
    processFeature schema i st f = .fail ⟨st.shapes ++ [shape], st.records⟩ e := by
  simp [processFeature, hg, ht, hp, ha]

theorem processFeature_fail_write (schema : Schema) (i : Nat) (st : RunState)
    (f : Feature) (g : GeoValue) (shape : ShapeRecord) (props : PropertyMap)
    (record : DbfRecord) (e : ConvError)
    (hg : f.geometry = some g) (ht : transcodeGeometry i g = .ok shape)
    (hp : f.properties = some props) (ha : assembleRecord props = .ok record)
    (hw : writeRecord i record schema = .error e) :
    processFeature schema i st f = .fail ⟨st.shapes ++ [shape], st.records⟩ e := by
  simp [processFeature, hg, ht, hp, ha, hw]

theorem writeRun_append (schema : Schema) (pre : List Feature) :
    ∀ (post : List Feature) (i : Nat) (st st' : RunState),
      writeRun schema i st pre = .ok st' →
      writeRun schema i st (pre ++ post) =
        writeRun schema (i + pre.length) st' post := by
  induction pre with
  | nil =>
    intro post i st st' h
    simp [writeRun] at h
    subst h
    simp
  | cons f rest ih =>
    intro post i st st' h
    rw [writeRun] at h
    cases hf : processFeature schema i st f with
    | fail st2 e => simp [hf] at h
    | ok st2 =>
      simp only [hf] at h
      rw [List.cons_append, writeRun, hf]
      show writeRun schema (i + 1) st2 (rest ++ post) =
        writeRun schema (i + (f :: rest).length) st' post
      rw [ih post (i + 1) st2 st' h]
      congr 1
      simp
      omega

theorem writeRun_ok_of_steps (schema : Schema) (features : List Feature)
    (hstep : ∀ f ∈ features, ∀ (i : Nat) (st : RunState), ∃ shape record,
      processFeature schema i st f =
        .ok ⟨st.shapes ++ [shape], st.records ++ [record]⟩) :
    ∀ (i : Nat) (st : RunState), ∃ st',
      writeRun schema i st features = .ok st' ∧
      st'.shapes.length = st.shapes.length + features.length ∧
      st'.records.length = st.records.length + features.length := by
  induction features with
  | nil => intro i st; exact ⟨st, rfl, by simp, by simp⟩
  | cons f rest ih =>
    intro i st
    obtain ⟨shape, record, hf⟩ := hstep f (List.mem_cons_self f rest) i st
    obtain ⟨st', hrun, h1, h2⟩ :=
      ih (fun g hg => hstep g (List.mem_cons_of_mem f hg)) (i + 1)
        ⟨st.shapes ++ [shape], st.records ++ [record]⟩
    refine ⟨st', ?_, ?_, ?_⟩
    · rw [writeRun, hf]; exact hrun
    · simp at h1; simp [h1]; omega
    · simp at h2; simp [h2]; omega

theorem processFeature_cases (schema : Schema) (i : Nat) (st : RunState)
    (f : Feature) :
    (∃ shape record, processFeature schema i st f =
        .ok ⟨st.shapes ++ [shape], st.records ++ [record]⟩) ∨
    (∃ e, processFeature schema i st f = .fail st e) ∨
    (∃ shape e, processFeature schema i st f =
        .fail ⟨st.shapes ++ [shape], st.records⟩ e) := by
  rcases hg : f.geometry with _ | g
  · exact Or.inr (Or.inl ⟨.missingGeometry i, by simp [processFeature, hg]⟩)
  · rcases ht : transcodeGeometry i g with e | shape
    · exact Or.inr (Or.inl ⟨e, by simp [processFeature, hg, ht]⟩)
    · rcases hp : f.properties with _ | props
      · exact Or.inr (Or.inr ⟨shape, .missingProperties i,
          by simp [processFeature, hg, ht, hp]⟩)
      · rcases ha : assembleRecord props with e | record
        · exact Or.inr (Or.inr ⟨shape, e, by simp [processFeature, hg, ht, hp, ha]⟩)
        · rcases hw : writeRecord i record schema with e | u
          · exact Or.inr (Or.inr ⟨shape, e,
              by simp [processFeature, hg, ht, hp, ha, hw]⟩)
          · exact Or.inl ⟨shape, record,
              by cases u; simp [processFeature, hg, ht, hp, ha, hw]⟩

theorem writeRun_balance (schema : Schema) (features : List Feature) :
    ∀ (i : Nat) (st : RunState), st.records.length = st.shapes.length →
      ((writeRun schema i st features).state.records.length ≤
          (writeRun schema i st features).state.shapes.length ∧
        (writeRun schema i st features).state.shapes.length ≤
          (writeRun schema i st features).state.records.length + 1) ∧
      ∀ st', writeRun schema i st features = .ok st' →
        st'.shapes.length = st'.records.length := by
  induction features with
  | nil =>
    intro i st hbal
    refine ⟨?_, ?_⟩
    · simp [writeRun, RunResult.state]; omega
    · intro st' h
      simp [writeRun] at h
      subst h
      omega
  | cons f rest ih =>
    intro i st hbal
    rcases processFeature_cases schema i st f with ⟨shape, record, hok⟩ |
      ⟨e, hfail⟩ | ⟨shape, e, hfail⟩
    · rw [writeRun, hok]
      exact ih (i + 1) ⟨st.shapes ++ [shape], st.records ++ [record]⟩
        (by simp [hbal])
    · rw [writeRun, hfail]
      refine ⟨?_, ?_⟩
      · simp [RunResult.state]; omega
      · intro st' h; simp at h
    · rw [writeRun, hfail]
      refine ⟨?_, ?_⟩
      · simp [RunResult.state]; omega
      · intro st' h; simp at h

/-! ### Claim theorems -/

/-- C1: every schema built by `build_dbf_writer` has its column order
equal to the first-seen iteration order of the attribute names in the
first feature's property map, and the schema depends on the first
feature only — replacing all later features changes nothing, so the
column set is never re-derived or widened. -/
theorem spec_C1 (f : Feature) (rest rest' : List Feature) (props : PropertyMap)
    (hprops : f.properties = some props) :
    build_dbf_writer ⟨f :: rest⟩ = build_dbf_writer ⟨f :: rest'⟩ ∧
    ∀ schema, build_dbf_writer ⟨f :: rest⟩ = .ok schema →
      schema.map ColumnDescriptor.name = props.map Prod.fst := by
  refine ⟨rfl, ?_⟩
  intro schema h
  simp [build_dbf_writer, hprops] at h
  obtain ⟨hmap, hsup⟩ := buildSchemaFromProps_ok_inv props schema h
  subst hmap
  rw [List.map_map]
  simp [Function.comp, columnOf_name]

/-- C1 witness: the example two-feature collection, whose schema columns
come out as `[id, name]`, the first feature's attribute order. -/
theorem spec_C1_witness :
    build_dbf_writer ⟨[exPointFeature, exPointFeature2]⟩ =
      build_dbf_writer ⟨[exPointFeature]⟩ ∧
    ∀ schema, build_dbf_writer ⟨[exPointFeature, exPointFeature2]⟩ = .ok schema →
      schema.map ColumnDescriptor.name =
        [("id", JsonValue.num (some 1)), ("name", JsonValue.str "a")].map Prod.fst :=
  spec_C1 exPointFeature [exPointFeature2] []
    [("id", .num (some 1)), ("name", .str "a")] rfl

/-- C2: on a nonempty collection whose every feature has a transcodable
Point or LineString geometry and a property map with the same attribute
name set as the first feature's — in any order — and the same (supported)
value kind per name, construction succeeds and a completed `write` run
writes exactly one geometry record and one attribute record per feature,
so both written counts equal the feature count. -/
theorem spec_C2 (fc : FeatureCollection) (f0 : Feature) (fs : List Feature)
    (props0 : PropertyMap)
    (hfc : fc.features = f0 :: fs)
    (hprops0 : f0.properties = some props0)
    (hsup : ∀ p ∈ props0, p.2.isSupported = true)
    (hfeat : ∀ f ∈ fc.features, (∃ g, f.geometry = some g ∧ geomOk g = true) ∧
      (∃ props, f.properties = some props ∧ (props.map Prod.fst).Nodup ∧
        (∀ p ∈ props, ∃ v0, (p.1, v0) ∈ props0 ∧ p.2.kindName = v0.kindName) ∧
        (∀ p0 ∈ props0, ∃ v, (p0.1, v) ∈ props ∧ v.kindName = p0.2.kindName))) :
    ∃ w st, FeatureCollectionToShpWriter.new fc = .ok w ∧
      w.write = .ok st ∧
      st.shapes.length = fc.features.length ∧
      st.records.length = fc.features.length := by
  have hschema : build_dbf_writer fc = .ok (props0.map columnOf) := by
    simp [build_dbf_writer, hfc, hprops0, buildSchemaFromProps_eq_map props0 hsup]
  have hw : FeatureCollectionToShpWriter.new fc = .ok ⟨fc, props0.map columnOf⟩ := by
    simp [FeatureCollectionToShpWriter.new, hschema, Bind.bind, Except.bind,
      Pure.pure, Except.pure]
  have hstep : ∀ f ∈ fc.features, ∀ (i : Nat) (st : RunState), ∃ shape record,
      processFeature (props0.map columnOf) i st f =
        .ok ⟨st.shapes ++ [shape], st.records ++ [record]⟩ := by
    intro f hf i st
    obtain ⟨⟨g, hg, hgok⟩, props, hp, hnd, hsub, hcover⟩ := hfeat f hf
    obtain ⟨shape, hshape⟩ := transcodeGeometry_ok i g hgok
    have hsup' : ∀ p ∈ props, p.2.isSupported = true := by
      intro p hpmem
      obtain ⟨v0, hv0, hk⟩ := hsub p hpmem
      exact isSupported_of_kindName p.2 v0 hk (hsup (p.1, v0) hv0)
    have hrec := assembleRecord_eq_map props hsup'
    have hwr := writeRecord_ok_of_kinds i props props0 hnd hcover hsup
    exact ⟨shape, props.map fun p => (p.1, fieldValueOf p.2),
      processFeature_ok_parts (props0.map columnOf) i st f g props shape
        (props.map fun p => (p.1, fieldValueOf p.2)) hg hshape hp hrec hwr⟩
  obtain ⟨st', hrun, h1, h2⟩ :=
    writeRun_ok_of_steps (props0.map columnOf) fc.features hstep 0 ⟨[], []⟩
  refine ⟨⟨fc, props0.map columnOf⟩, st', hw, hrun, by simpa using h1,
    by simpa using h2⟩

/-- C2 witness: the example collection whose second feature lists the
same attribute names in the opposite order still converts completely,
two shapes and two records for its two features. -/
theorem spec_C2_witness :
    ∃ w st, FeatureCollectionToShpWriter.new exPermCollection = .ok w ∧
      w.write = .ok st ∧
      st.shapes.length = exPermCollection.features.length ∧
      st.records.length = exPermCollection.features.length :=
  spec_C2 exPermCollection exPointFeature [exPermFeature]
    [("id", .num (some 1)), ("name", .str "a")] rfl rfl (by decide)
    (by
      intro f hf
      have hcases : f = exPointFeature ∨ f = exPermFeature := by
        simpa [exPermCollection] using hf
      rcases hcases with rfl | rfl
      · refine ⟨⟨.point [1, 2], rfl, rfl⟩,
          [("id", .num (some 1)), ("name", .str "a")], rfl, by decide, ?_, ?_⟩
        · intro p hp
          have hp2 : p = ("id", JsonValue.num (some 1)) ∨
              p = ("name", JsonValue.str "a") := by simpa using hp
          rcases hp2 with rfl | rfl
          · exact ⟨.num (some 1), by decide, rfl⟩
          · exact ⟨.str "a", by decide, rfl⟩
        · intro p0 hp0
          have hp2 : p0 = ("id", JsonValue.num (some 1)) ∨
              p0 = ("name", JsonValue.str "a") := by simpa using hp0
          rcases hp2 with rfl | rfl
          · exact ⟨.num (some 1), by decide, rfl⟩
          · exact ⟨.str "a", by decide, rfl⟩
      · refine ⟨⟨.point [3, 4], rfl, rfl⟩,
          [("name", .str "b"), ("id", .num (some 2))], rfl, by decide, ?_, ?_⟩
        · intro p hp
          have hp2 : p = ("name", JsonValue.str "b") ∨
              p = ("id", JsonValue.num (some 2)) := by simpa using hp
          rcases hp2 with rfl | rfl
          · exact ⟨.str "a", by decide, rfl⟩
          · exact ⟨.num (some 1), by decide, rfl⟩
        · intro p0 hp0
          have hp2 : p0 = ("id", JsonValue.num (some 1)) ∨
              p0 = ("name", JsonValue.str "a") := by simpa using hp0
          rcases hp2 with rfl | rfl
          · exact ⟨.num (some 2), by decide, rfl⟩
          · exact ⟨.str "b", by decide, rfl⟩)

/-- C3: a LineString of k points (each with x/y present) transcodes to
a polyline shape record with exactly k vertices, and the vertex at each
index equals the (x, y) of the input position at that index, extra Z/M
coordinates dropped; k = 0 and k = 1 are passed through unchanged. -/
theorem spec_C3 (i : Nat) (pts : List Position)
    (h : ∀ p ∈ pts, positionOk p = true) :
    ∃ vs, transcodeGeometry i (.lineString pts) = .ok (.polyline vs) ∧
      vs.length = pts.length ∧
      ∀ (j : Nat) (x y : Rat) (zm : List Rat),
        pts[j]? = some (x :: y :: zm) → vs[j]? = some (x, y) := by
  obtain ⟨vs, hvs, hlen, hpt⟩ := transcodeLine_ok i pts h
  exact ⟨vs, by simp [transcodeGeometry, hvs], hlen, hpt⟩

/-- C3 witness: a two-point line, the second point carrying a dropped
third coordinate. -/
theorem spec_C3_witness :
    ∃ vs, transcodeGeometry 0 (.lineString [[1, 2], [3, 4, 9]]) = .ok (.polyline vs) ∧
      vs.length = ([[1, 2], [3, 4, 9]] : List Position).length ∧
      ∀ (j : Nat) (x y : Rat) (zm : List Rat),
        ([[1, 2], [3, 4, 9]] : List Position)[j]? = some (x :: y :: zm) →
        vs[j]? = some (x, y) :=
  spec_C3 0 [[1, 2], [3, 4, 9]] (by decide)

/-- C4: a Point geometry transcodes to a single-point shape record
carrying the input (x, y) unchanged, with any further (Z/M) coordinates
dropped. -/
theorem spec_C4 (i : Nat) (x y : Rat) (zm : List Rat) :
    transcodeGeometry i (.point (x :: y :: zm)) = .ok (.point x y) := rfl

/-- C5: a feature with a geometry of any unsupported variant makes the
run fail with `UnsupportedGeometryType` carrying the feature's index and
the variant tag, and the failure state is exactly the state after the
preceding features — no geometry record is written for that feature. -/
theorem spec_C5 (schema : Schema) (i : Nat) (st st' : RunState)
    (pre post : List Feature) (f : Feature) (g : GeoValue)
    (hpre : writeRun schema i st pre = .ok st')
    (hg : f.geometry = some g)
    (hunsup : g.isSupportedGeom = false) :
    writeRun schema i st (pre ++ f :: post) =
      .fail st' (.unsupportedGeometryType (i + pre.length) g.tagName) := by
  rw [writeRun_append schema pre (f :: post) i st st' hpre]
  simp [writeRun, processFeature_fail_geom schema (i + pre.length) st' f g hg hunsup]

/-- C5 witness: a Polygon feature after one good point feature fails at
index 1 with tag "Polygon", leaving only the first feature's shape. -/
theorem spec_C5_witness :
    writeRun exSchema 0 ⟨[], []⟩ ([exPointFeature] ++ c5PolygonFeature :: []) =
      .fail ⟨[.point 1 2],
          [[("id", .numeric (some 1)), ("name", .character (some "a"))]]⟩
        (.unsupportedGeometryType (0 + [exPointFeature].length)
          GeoValue.polygon.tagName) :=
  spec_C5 exSchema 0 ⟨[], []⟩
    ⟨[.point 1 2], [[("id", .numeric (some 1)), ("name", .character (some "a"))]]⟩
    [exPointFeature] [] c5PolygonFeature .polygon rfl rfl rfl

/-- C6: the first Array/Object/Null/Boolean property value encountered
is fatal with `UnsupportedAttributeType` naming the attribute and its
kind — both in the schema-building pass over the first feature's map and
in the record-assembly pass over any feature's map mid-run; the feature
is not skipped, the whole run fails there. -/
theorem spec_C6 (schema : Schema) (i : Nat) (st st' : RunState)
    (pre post : List Feature) (f : Feature) (g : GeoValue) (shape : ShapeRecord)
    (good : PropertyMap) (n : String) (bad : JsonValue) (rest : PropertyMap)
    (hpre : writeRun schema i st pre = .ok st')
    (hg : f.geometry = some g)
    (ht : transcodeGeometry (i + pre.length) g = .ok shape)
    (hp : f.properties = some (good ++ (n, bad) :: rest))
    (hgood : ∀ p ∈ good, p.2.isSupported = true)
    (hbad : bad.isSupported = false) :
    buildSchemaFromProps (good ++ (n, bad) :: rest) =
      .error (.unsupportedAttributeType n bad.kindName) ∧
    writeRun schema i st (pre ++ f :: post) =
      .fail ⟨st'.shapes ++ [shape], st'.records⟩
        (.unsupportedAttributeType n bad.kindName) := by
  refine ⟨buildSchemaFromProps_append_err good n bad rest hgood hbad, ?_⟩
  rw [writeRun_append schema pre (f :: post) i st st' hpre]
  have ha := assembleRecord_append_err good n bad rest hgood hbad
  simp [writeRun, processFeature_fail_attrs schema (i + pre.length) st' f g shape
    (good ++ (n, bad) :: rest) (.unsupportedAttributeType n bad.kindName) hg ht hp ha]

/-- C6 witness: a Boolean-valued property "flag" fails schema building,
and fails the run at the second feature after its shape was written. -/
theorem spec_C6_witness :
    buildSchemaFromProps
        ([("id", JsonValue.num (some 3))] ++ ("flag", JsonValue.bool true) :: []) =
      .error (.unsupportedAttributeType "flag" (JsonValue.bool true).kindName) ∧
    writeRun exSchema 0 ⟨[], []⟩ ([exPointFeature] ++ c6BadAttrFeature :: []) =
      .fail ⟨[.point 1 2, .point 5 6],
          [[("id", .numeric (some 1)), ("name", .character (some "a"))]]⟩
        (.unsupportedAttributeType "flag" (JsonValue.bool true).kindName) :=
  spec_C6 exSchema 0 ⟨[], []⟩
    ⟨[.point 1 2], [[("id", .numeric (some 1)), ("name", .character (some "a"))]]⟩
    [exPointFeature] [] c6BadAttrFeature (.point [5, 6]) (.point 5 6)
    [("id", .num (some 3))] "flag" (.bool true) [] rfl rfl rfl rfl (by decide) rfl

/-- C7 counterexample: the claim says any feature whose attribute name
set differs from the schema's column set fails with `MissingAttribute`.
Here the second feature's name set differs only by the extra attribute
"extra", absent from the schema (which has the single column "id"), yet
the run completes successfully with two shapes and two records — the
extra attribute is silently ignored, no `MissingAttribute` is raised. -/
theorem spec_C7_counterexample :
    build_dbf_writer c7Collection = .ok [⟨"id", .numeric 22 20⟩] ∧
    convertRun c7Collection = .ok (.ok ⟨[.point 0 1, .point 2 3],
      [[("id", .numeric (some 1))],
       [("id", .numeric (some 2)), ("extra", .character (some "x"))]]⟩) :=
  ⟨rfl, rfl⟩

/-- C7 (amended): a feature whose property map lacks a schema column
fails with `MissingAttribute` naming the feature index and the first
such column in schema order, leaving the feature's shape but no
attribute record; record entries whose names are not schema columns are
ignored and never cause a failure. -/
theorem spec_C7_amended (schema : Schema) (i : Nat) (st st' : RunState)
    (pre post : List Feature) (f : Feature) (g : GeoValue) (shape : ShapeRecord)
    (props : PropertyMap) (record : DbfRecord) (cs1 cs2 : Schema)
    (col : ColumnDescriptor)
    (hpre : writeRun schema i st pre = .ok st')
    (hg : f.geometry = some g)
    (ht : transcodeGeometry (i + pre.length) g = .ok shape)
    (hp : f.properties = some props)
    (ha : assembleRecord props = .ok record)
    (hschema : schema = cs1 ++ col :: cs2)
    (hcs1 : ∀ c ∈ cs1, ∃ fv, record.lookup c.name = some fv ∧
      fieldTypeMatches c.colType fv = true)
    (hmiss : record.lookup col.name = none) :
    writeRun schema i st (pre ++ f :: post) =
      .fail ⟨st'.shapes ++ [shape], st'.records⟩
        (.missingAttribute (i + pre.length) col.name) ∧
    ∀ (j : Nat) (rec2 extras : DbfRecord) (sch : Schema),
      (∀ e ∈ extras, ∀ c ∈ sch, e.1 ≠ c.name) →
      writeRecord j (rec2 ++ extras) sch = writeRecord j rec2 sch := by
  constructor
  · rw [writeRun_append schema pre (f :: post) i st st' hpre]
    have hw : writeRecord (i + pre.length) record schema =
        .error (.missingAttribute (i + pre.length) col.name) := by
      rw [hschema]
      exact writeRecord_missing (i + pre.length) record cs1 cs2 col hcs1 hmiss
    simp [writeRun, processFeature_fail_write schema (i + pre.length) st' f g shape
      props record (.missingAttribute (i + pre.length) col.name) hg ht hp ha hw]
  · intro j rec2 extras sch hdisj
    exact writeRecord_extras j rec2 extras sch hdisj

/-- C7 witness: a second feature lacking the schema column "name" fails
at index 1 with `MissingAttribute`; and attribute entries outside the
schema never change the sink's outcome. -/
theorem spec_C7_amended_witness :
    writeRun exSchema 0 ⟨[], []⟩ ([exPointFeature] ++ c7MissingAttrFeature :: []) =
      .fail ⟨[.point 1 2, .point 7 8],
          [[("id", .numeric (some 1)), ("name", .character (some "a"))]]⟩
        (.missingAttribute (0 + [exPointFeature].length) "name") ∧
    ∀ (j : Nat) (rec2 extras : DbfRecord) (sch : Schema),
      (∀ e ∈ extras, ∀ c ∈ sch, e.1 ≠ c.name) →
      writeRecord j (rec2 ++ extras) sch = writeRecord j rec2 sch :=
  spec_C7_amended exSchema 0 ⟨[], []⟩
    ⟨[.point 1 2], [[("id", .numeric (some 1)), ("name", .character (some "a"))]]⟩
    [exPointFeature] [] c7MissingAttrFeature (.point [7, 8]) (.point 7 8)
    [("id", .num (some 4))] [("id", .numeric (some 4))]
    [⟨"id", .numeric 22 20⟩] [] ⟨"name", .character 255⟩
    rfl rfl rfl rfl rfl rfl
    (by
      intro c hc
      rw [List.mem_singleton] at hc
      subst hc
      exact ⟨.numeric (some 4), rfl, rfl⟩) rfl

/-- C8: schema building — and hence writer construction — fails with
`EmptyCollection` on a collection with zero features, and with
`MissingProperties` when the first feature has no property map. -/
theorem spec_C8 (fc : FeatureCollection) :
    (fc.features = [] →
      build_dbf_writer fc = .error .emptyCollection ∧
      FeatureCollectionToShpWriter.new fc = .error .emptyCollection) ∧
    (∀ f rest, fc.features = f :: rest → f.properties = none →
      build_dbf_writer fc = .error (.missingProperties 0) ∧
      FeatureCollectionToShpWriter.new fc = .error (.missingProperties 0)) := by
  constructor
  · intro h
    have h1 : build_dbf_writer fc = .error .emptyCollection := by
      simp [build_dbf_writer, h]
    refine ⟨h1, ?_⟩
    simp [FeatureCollectionToShpWriter.new, h1, Bind.bind, Except.bind]
  · intro f rest hfc hp
    have h1 : build_dbf_writer fc = .error (.missingProperties 0) := by
      simp [build_dbf_writer, hfc, hp]
    refine ⟨h1, ?_⟩
    simp [FeatureCollectionToShpWriter.new, h1, Bind.bind, Except.bind]

/-- C8 witness: the empty collection and a collection whose only
feature has no property map. -/
theorem spec_C8_witness :
    build_dbf_writer ⟨[]⟩ = .error .emptyCollection ∧
    build_dbf_writer ⟨[⟨some (.point [0, 0]), none⟩]⟩ =
      .error (.missingProperties 0) :=
  ⟨((spec_C8 ⟨[]⟩).1 rfl).1,
    ((spec_C8 ⟨[⟨some (.point [0, 0]), none⟩]⟩).2
      ⟨some (.point [0, 0]), none⟩ [] rfl rfl).1⟩

/-- C9: every column of a successfully built schema is Numeric(22,20)
or Character(255); a Number-valued attribute gets the Numeric(22,20)
column of its name and a Text-valued attribute the Character(255)
column of its name. -/
theorem spec_C9 (fc : FeatureCollection) (f : Feature) (rest : List Feature)
    (props : PropertyMap) (schema : Schema)
    (hfc : fc.features = f :: rest) (hp : f.properties = some props)
    (hok : build_dbf_writer fc = .ok schema) :
    (∀ col ∈ schema, col.colType = .numeric 22 20 ∨ col.colType = .character 255) ∧
    ∀ (nm : String) (v : JsonValue), (nm, v) ∈ props →
      ((∃ q, v = .num q) → (⟨nm, .numeric 22 20⟩ : ColumnDescriptor) ∈ schema) ∧
      ((∃ s, v = .str s) → (⟨nm, .character 255⟩ : ColumnDescriptor) ∈ schema) := by
  simp [build_dbf_writer, hfc, hp] at hok
  obtain ⟨hmap, hsup⟩ := buildSchemaFromProps_ok_inv props schema hok
  subst hmap
  constructor
  · intro col hcol
    obtain ⟨p, hmem, hcoleq⟩ := List.mem_map.mp hcol
    subst hcoleq
    rcases p with ⟨n, v⟩
    cases v <;> simp [columnOf]
  · intro nm v hv
    constructor
    · rintro ⟨q, rfl⟩
      exact List.mem_map.mpr ⟨(nm, .num q), hv, rfl⟩
    · rintro ⟨s, rfl⟩
      exact List.mem_map.mpr ⟨(nm, .str s), hv, rfl⟩

/-- C9 witness: the example collection's schema is exactly
`[id:Numeric(22,20), name:Character(255)]`. -/
theorem spec_C9_witness :
    (∀ col ∈ exSchema, col.colType = .numeric 22 20 ∨ col.colType = .character 255) ∧
    ∀ (nm : String) (v : JsonValue),
      (nm, v) ∈ [("id", JsonValue.num (some 1)), ("name", JsonValue.str "a")] →
      ((∃ q, v = .num q) → (⟨nm, .numeric 22 20⟩ : ColumnDescriptor) ∈ exSchema) ∧
      ((∃ s, v = .str s) → (⟨nm, .character 255⟩ : ColumnDescriptor) ∈ exSchema) :=
  spec_C9 exCollection exPointFeature [exPointFeature2]
    [("id", .num (some 1)), ("name", .str "a")] exSchema rfl rfl rfl

/-- C10: at every point of a run — after the final state of any run,
aborted or not — the number of attribute records written never exceeds
the number of shape records written, and the two differ by at most one,
with equality on every completed run; per step, a successful feature
appends exactly one shape then one record, and a failed feature never
appends an attribute record though it may already have appended its
shape (the shape write strictly precedes the record write). -/
theorem spec_C10 (schema : Schema) (features : List Feature) :
    ((writeRun schema 0 ⟨[], []⟩ features).state.records.length ≤
        (writeRun schema 0 ⟨[], []⟩ features).state.shapes.length ∧
      (writeRun schema 0 ⟨[], []⟩ features).state.shapes.length ≤
        (writeRun schema 0 ⟨[], []⟩ features).state.records.length + 1) ∧
    (∀ st', writeRun schema 0 ⟨[], []⟩ features = .ok st' →
      st'.shapes.length = st'.records.length) ∧
    (∀ (i : Nat) (st : RunState) (f : Feature) (st1 : RunState),
      processFeature schema i st f = .ok st1 →
      ∃ shape record, st1 = ⟨st.shapes ++ [shape], st.records ++ [record]⟩) ∧
    (∀ (i : Nat) (st : RunState) (f : Feature) (st1 : RunState) (e : ConvError),
      processFeature schema i st f = .fail st1 e →
      st1.records = st.records ∧
      (st1.shapes = st.shapes ∨ ∃ shape, st1.shapes = st.shapes ++ [shape])) := by
  obtain ⟨hbounds, hok⟩ := writeRun_balance schema features 0 ⟨[], []⟩ rfl
  refine ⟨hbounds, hok, ?_, ?_⟩
  · intro i st f st1 h
    rcases processFeature_cases schema i st f with ⟨shape, record, hc⟩ |
      ⟨e, hc⟩ | ⟨shape, e, hc⟩
    · rw [h] at hc
      simp only [RunResult.ok.injEq] at hc
      exact ⟨shape, record, hc⟩
    · rw [h] at hc; cases hc
    · rw [h] at hc; cases hc
  · intro i st f st1 e h
    rcases processFeature_cases schema i st f with ⟨shape, record, hc⟩ |
      ⟨e2, hc⟩ | ⟨shape, e2, hc⟩
    · rw [h] at hc; cases hc
    · rw [h] at hc
      injection hc with h1 h2
      subst h1
      exact ⟨rfl, Or.inl rfl⟩
    · rw [h] at hc
      injection hc with h1 h2
      subst h1
      exact ⟨rfl, Or.inr ⟨shape, rfl⟩⟩

/-- C10 witness: a completed one-feature run has equal shape and record
counts. -/
theorem spec_C10_witness :
    (⟨[.point 1 2], [[("id", FieldValue.numeric (some 1)),
        ("name", FieldValue.character (some "a"))]]⟩ : RunState).shapes.length =
    (⟨[.point 1 2], [[("id", FieldValue.numeric (some 1)),
        ("name", FieldValue.character (some "a"))]]⟩ : RunState).records.length :=
  (spec_C10 exSchema [exPointFeature]).2.1
    ⟨[.point 1 2], [[("id", .numeric (some 1)), ("name", .character (some "a"))]]⟩ rfl
